import Mathlib

/-!
Verification of the client-side logic of the Care-Route Pro application
(`src/App.tsx`, `src/types.ts`, `src/geminiService.ts`).

The development shallowly embeds the pure client logic: the date-month
classifier `getMonthFromDateString`, the facility partitioner `sortedStats`,
the selection manager (`toggleSelection`, `selectTop9`, `clearSelection`),
route assembly (the route-modal rendering and `getMapsUrl`), and the
orchestrator's state transitions (`handleParse`, the reset button).
React `useState` cells are gathered into an explicit `AppState` record and
each handler becomes a state-transition function.
-/

namespace CareRoute

/-- The `Facility` record from `src/types.ts`. -/
structure Facility where
  id : String
  name : String
  address : String
  phone : String
  lastVisitDate : String
  lastComment : String
  careManagerCount : Nat
deriving DecidableEq, Repr, Inhabited

/-! ## Date-Month Classifier (`getMonthFromDateString`, App.tsx lines 28-37)

The JS function first runs the unanchored regex `/(\d{1,2})[月\/\-\.]/`
(leftmost match, greedy `\d{1,2}` with backtracking) and, failing that,
the anchored `/^\d{1,2}$/`. We embed the regex engine's behaviour on this
particular pattern directly. -/

/-- The separator character class `[月\/\-\.]` of the first regex. -/
def isSep (c : Char) : Bool :=
  c = '月' || c = '/' || c = '-' || c = '.'

/-- Base-10 reading of a digit list, i.e. `parseInt(m, 10)` on the matched
digits (which are guaranteed decimal digits by the pattern). -/
def parseDigits (ds : List Char) : Nat :=
  ds.foldl (fun n c => n * 10 + (c.toNat - 48)) 0

/-- Leftmost match of the unanchored pattern `(\d{1,2})[月\/\-\.]`:
at each position the engine greedily tries two digits followed by a
separator, then backtracks to one digit followed by a separator, then
advances one position.  Returns the digits captured by group 1. -/
def findMonthMatch : List Char → Option (List Char)
  | [] => none
  | c :: cs =>
    match cs with
    | c2 :: c3 :: _ =>
      if c.isDigit && c2.isDigit && isSep c3 then some [c, c2]
      else if c.isDigit && isSep c2 then some [c]
      else findMonthMatch cs
    | [c2] =>
      if c.isDigit && isSep c2 then some [c]
      else findMonthMatch cs
    | [] => none

/-- The anchored pattern `/^\d{1,2}$/`: the whole string is one or two
decimal digits. -/
def isBareNum (l : List Char) : Bool :=
  (l.length = 1 || l.length = 2) && l.all Char.isDigit

/-- `getMonthFromDateString` from App.tsx lines 28-37.  The
`string | undefined` argument becomes `Option String`; `!dateStr` is true
exactly for `undefined` and the empty string. -/
def getMonthFromDateString : Option String → Option Nat
  | none => none
  | some dateStr =>
    if dateStr = "" ∨ dateStr = "なし" ∨ dateStr = "未訪問" then none
    else
      match findMonthMatch dateStr.data with
      | some ds => some (parseDigits ds)
      | none =>
        if isBareNum dateStr.data then some (parseDigits dateStr.data)
        else none

example : getMonthFromDateString (some "3月12日") = some 3 := by decide
example : getMonthFromDateString (some "03/12") = some 3 := by decide
example : getMonthFromDateString (some "2024-03") = some 24 := by decide
example : getMonthFromDateString (some "3.12") = some 3 := by decide
example : getMonthFromDateString (some "12") = some 12 := by decide
example : getMonthFromDateString (some "なし") = none := by decide
example : getMonthFromDateString (some "abc") = none := by decide

/-! ## Facility Partitioner (`sortedStats`, App.tsx lines 40-54) -/

/-- The `isV` test used both in `sortedStats` and in the card rendering:
`getMonthFromDateString(f.lastVisitDate) === currentMonth`. -/
def isVisitedIn (currentMonth : Nat) (f : Facility) : Bool :=
  getMonthFromDateString (some f.lastVisitDate) == some currentMonth

/-- Result of `sortedStats` (the memoized `{ visited, unvisited, total }`). -/
structure SortedStats where
  visited : List Facility
  unvisited : List Facility
  total : Nat
deriving DecidableEq, Repr

/-- `sortedStats` from App.tsx lines 40-54: a single `forEach` pass pushing
each facility onto `visited` when its classified month equals the current
month and onto `unvisited` otherwise. -/
def sortedStats (facilities : List Facility) (currentMonth : Nat) : SortedStats :=
  let acc := facilities.foldl
    (fun acc f =>
      if isVisitedIn currentMonth f then (acc.1 ++ [f], acc.2)
      else (acc.1, acc.2 ++ [f]))
    ([], [])
  ⟨acc.1, acc.2, facilities.length⟩

/-! ## Selection Manager (App.tsx lines 58-70) -/

/-- `toggleSelection` from App.tsx lines 58-67: remove a selected id;
otherwise refuse to grow past 9 members (the `alert` branch returns with
no state change), else insert. -/
def toggleSelection (selectedIds : Finset String) (id : String) : Finset String :=
  if id ∈ selectedIds then selectedIds.erase id
  else if selectedIds.card ≥ 9 then selectedIds
  else insert id selectedIds

/-- `selectTop9` from App.tsx line 69:
`new Set(sortedStats.unvisited.slice(0, 9).map(f => f.id))`.
The unvisited list is the one current at click time, so it is a parameter. -/
def selectTop9 (unvisited : List Facility) : Finset String :=
  ((unvisited.take 9).map (fun f => f.id)).toFinset

/-- `clearSelection` from App.tsx line 70: `new Set()`. -/
def clearSelection : Finset String := ∅

/-- One user action on the selection set, for stating invariants over
arbitrary interaction sequences. -/
inductive SelOp where
  | toggle (id : String)
  | selectTop9 (unvisited : List Facility)
  | clear

/-- Apply one selection action to the current selection set. -/
def applySelOp (s : Finset String) : SelOp → Finset String
  | .toggle id => toggleSelection s id
  | .selectTop9 u => selectTop9 u
  | .clear => clearSelection

/-- The facility-card click handler from App.tsx line 239:
`onClick={() => !isV && toggleSelection(f.id)}` — the toggle is guarded so
that a facility classified as visited in the current month is never
toggled. -/
def onFacilityCardClick (currentMonth : Nat) (f : Facility)
    (selectedIds : Finset String) : Finset String :=
  if isVisitedIn currentMonth f then selectedIds
  else toggleSelection selectedIds f.id

/-! ## Route Assembly and the Maps deep link (App.tsx lines 117-124, 274-296) -/

/-- JavaScript `encodeURIComponent` leaves the unreserved characters
`A-Z a-z 0-9 - _ . ! ~ * ' ( )` untouched.  `Char.ofNat 39` is the
apostrophe. -/
def isUnreservedChar (c : Char) : Bool :=
  c.isAlpha || c.isDigit ||
    (c = '-' || c = '_' || c = '.' || c = '!' || c = '~' || c = '*' ||
     c = Char.ofNat 39 || c = '(' || c = ')')

/-- The UTF-8 byte sequence of a Unicode scalar value. -/
def utf8Bytes (c : Char) : List Nat :=
  let n := c.toNat
  if n < 0x80 then [n]
  else if n < 0x800 then [0xC0 + n / 0x40, 0x80 + n % 0x40]
  else if n < 0x10000 then
    [0xE0 + n / 0x1000, 0x80 + (n / 0x40) % 0x40, 0x80 + n % 0x40]
  else
    [0xF0 + n / 0x40000, 0x80 + (n / 0x1000) % 0x40,
     0x80 + (n / 0x40) % 0x40, 0x80 + n % 0x40]

/-- Uppercase hexadecimal digit for a value below 16. -/
def hexDigit (n : Nat) : Char :=
  if n < 10 then Char.ofNat (48 + n) else Char.ofNat (55 + n)

/-- `%XX` escape of one byte, uppercase hexadecimal. -/
def percentByte (b : Nat) : List Char :=
  ['%', hexDigit (b / 16), hexDigit (b % 16)]

/-- JavaScript `encodeURIComponent`: unreserved characters pass through,
every other character is percent-escaped byte-by-byte in UTF-8. -/
def encodeURIComponent (s : String) : String :=
  ⟨(s.data.map (fun c =>
      if isUnreservedChar c then [c]
      else ((utf8Bytes c).map percentByte).flatten)).flatten⟩

example : encodeURIComponent "a b" = "a%20b" := by decide
example : encodeURIComponent "35.0,139.0" = "35.0%2C139.0" := by decide

/-- JavaScript `Array.prototype.join(sep)`: empty array yields `""`. -/
def jsJoin (sep : String) : List String → String
  | [] => ""
  | [x] => x
  | x :: y :: rest => x ++ sep ++ jsJoin sep (y :: rest)

/-- The resolved stop sequence of `getMapsUrl` (App.tsx line 118):
`optimizedIds.map(id => facilities.find(f => f.id === id)).filter(Boolean)`. -/
def resolveOrdered (optimizedIds : List String) (facilities : List Facility) :
    List Facility :=
  (optimizedIds.map (fun id => facilities.find? (fun f => f.id == id))).reduceOption

/-- `getMapsUrl` from App.tsx lines 117-124.  `ordered[ordered.length - 1]!`
is reached only in the non-empty branch and is embedded as `getLast`;
`ordered.slice(0, -1)` is `dropLast`. -/
def getMapsUrl (optimizedIds : List String) (facilities : List Facility)
    (currentLocation : String) : String :=
  let ordered := resolveOrdered optimizedIds facilities
  if h : ordered = [] then ""
  else
    let origin := encodeURIComponent currentLocation
    let dest := encodeURIComponent (ordered.getLast h).address
    let wps := jsJoin "|" (ordered.dropLast.map (fun f => encodeURIComponent f.address))
    "https://www.google.com/maps/dir/?api=1&origin=" ++ origin ++
      "&destination=" ++ dest ++ "&waypoints=" ++ wps ++ "&travelmode=driving"

/-- The route-modal list from App.tsx lines 274-281:
`optimizedIds.map((id, idx) => ...)` looks each id up in the facility
collection, renders `null` on a miss, and labels a hit with `idx + 1`
where `idx` is the index in `optimizedIds`.  The explicit counter models
the `idx` argument of the JS callback. -/
def renderRoute (facilities : List Facility) : Nat → List String →
    List (Option (Nat × Facility))
  | _, [] => []
  | idx, id :: rest =>
    ((facilities.find? (fun f => f.id == id)).map (fun f => (idx + 1, f))) ::
      renderRoute facilities (idx + 1) rest

/-- The visible route list: React drops the `null` entries produced for
unresolved ids. -/
def routeDisplay (optimizedIds : List String) (facilities : List Facility) :
    List (Nat × Facility) :=
  (renderRoute facilities 0 optimizedIds).reduceOption

/-! ## Orchestrator state and handlers -/

/-- The `useState` cells of the `App` component that the verified handlers
touch (App.tsx lines 12-22). -/
structure AppState where
  ocrText : String
  selectedFiles : List String
  facilities : List Facility
  currentLocation : String
  optimizedIds : List String
  reasoning : String
  error : Option String
  showUnvisitedOnly : Bool
  selectedIds : Finset String
deriving DecidableEq

/-- Outcome of one call to the document-analysis service, as observed by
`parseContentToFacilities` (geminiService.ts): the `generateContent`
promise rejects; or it resolves with a falsy `response.text`; or the text
is present but `JSON.parse` throws; or parsing yields a facility array. -/
inductive SvcOutcome where
  | throws
  | emptyText
  | malformed
  | parsed (fs : List Facility)

/-- `parseContentToFacilities` from geminiService.ts: the whole call is
wrapped in `try/catch` and the catch returns `[]`; a falsy `response.text`
also yields `[]`.  The function therefore never propagates a failure. -/
def parseContentToFacilities : SvcOutcome → List Facility
  | .throws => []
  | .emptyText => []
  | .malformed => []
  | .parsed fs => fs

/-- `handleParse` from App.tsx lines 81-101 as a state transition.
`setError(null)` runs first; the only `throw` reachable inside the `try`
is the no-input check (the analysis call swallows its own failures), and
the `catch` sets the generic scan-failure message.  On the success path
the facility collection is replaced wholesale and the selection cleared. -/
def handleParse (outcome : SvcOutcome) (s : AppState) : AppState :=
  let s := { s with error := none }
  if s.selectedFiles.isEmpty && s.ocrText.trim == "" then
    { s with error := some "スキャンに失敗しました。" }
  else
    { s with facilities := parseContentToFacilities outcome,
             selectedIds := ∅ }

/-- The full-reset button from App.tsx line 308:
`setFacilities([]); setOptimizedIds([]); setSelectedIds(new Set());
setSelectedFiles([]); setError(null);` — note `reasoning` is not touched. -/
def resetState (s : AppState) : AppState :=
  { s with facilities := [], optimizedIds := [], selectedIds := ∅,
           selectedFiles := [], error := none }

/-- The route-modal dismiss button from App.tsx line 269:
`setOptimizedIds([])`. -/
def dismissRoute (s : AppState) : AppState :=
  { s with optimizedIds := [] }

/-! ## Claim-side definitions

These formalise the wording of the specification where it differs from, or
has to be compared against, the code above. -/

/-- Does the character list contain a decimal digit immediately followed
by a separator?  This captures "contains a 1-2 digit number immediately
followed by a separator": a two-digit run before a separator contains, in
particular, its last digit before that separator. -/
def containsMonthPattern : List Char → Bool
  | [] => false
  | c :: cs =>
    (match cs with
     | c2 :: _ => c.isDigit && isSep c2
     | [] => false) || containsMonthPattern cs

/-- The spec's anchored pattern `^\d{1,2}[月\/\-\.]`: a 1-2 digit number at
the very start of the string, immediately followed by a separator (greedy,
as a JS regex matches it).  Returns the leading digits. -/
def anchoredMonthDigits : List Char → Option (List Char)
  | c :: c2 :: c3 :: _ =>
    if c.isDigit && c2.isDigit && isSep c3 then some [c, c2]
    else if c.isDigit && isSep c2 then some [c]
    else none
  | [c, c2] => if c.isDigit && isSep c2 then some [c] else none
  | _ => none

/-- The amended route-assembly contract: walk `orderedIds` with a 1-based
counter that advances on every identifier (resolved or not); keep only the
resolved entries, each labelled with the counter value at its identifier,
i.e. with the identifier's 1-based position in `orderedIds`. -/
def routeDisplayFrom (facilities : List Facility) : Nat → List String →
    List (Nat × Facility)
  | _, [] => []
  | k, id :: rest =>
    match facilities.find? (fun f => f.id == id) with
    | some f => (k, f) :: routeDisplayFrom facilities (k + 1) rest
    | none => routeDisplayFrom facilities (k + 1) rest

/-- The driving-URL contract, written from the spec's words: empty resolved
sequence gives the empty string; otherwise a driving-mode URL whose origin
is the percent-encoded caller-supplied location, whose destination is the
percent-encoded address of the last element, and whose waypoints are the
percent-encoded addresses of all prior elements joined with a pipe in
original order. -/
def drivingUrlSpec (origin : String) (addrs : List String) : String :=
  match addrs.getLast? with
  | none => ""
  | some dest =>
    "https://www.google.com/maps/dir/?api=1&origin=" ++
      encodeURIComponent origin ++
      "&destination=" ++ encodeURIComponent dest ++
      "&waypoints=" ++ jsJoin "|" (addrs.dropLast.map encodeURIComponent) ++
      "&travelmode=driving"

/-- A concrete facility whose last visit does not parse to a month. -/
def facB : Facility :=
  ⟨"b", "ケアホームB", "東京都台東区1-1", "", "なし", "", 0⟩

/-- A concrete facility last visited in month 3. -/
def facMarch : Facility :=
  ⟨"f1", "ケアホームA", "東京都港区2-2", "", "3月12日", "", 2⟩

/-- A concrete application state holding a scanned collection, a route
plan with its rationale text, and no error. -/
def exampleState : AppState :=
  { ocrText := "記録テキスト"
    selectedFiles := ["訪問記録.pdf"]
    facilities := [facB, facMarch]
    currentLocation := "現在地"
    optimizedIds := ["b"]
    reasoning := "北から順に効率よく回るルート"
    error := none
    showUnvisitedOnly := true
    selectedIds := ∅ }

/-! ## Helper lemmas: the date-month classifier -/

/-- A separator character is never a decimal digit. -/
theorem isDigit_eq_false_of_isSep (c : Char) (h : isSep c = true) :
    c.isDigit = false := by
  simp only [isSep, Bool.or_eq_true, decide_eq_true_eq] at h
  rcases h with ((h | h) | h) | h <;> subst h <;> decide

/-- If no digit is immediately followed by a separator anywhere in the
list, the unanchored regex finds no match. -/
theorem findMonthMatch_eq_none (l : List Char)
    (h : containsMonthPattern l = false) : findMonthMatch l = none := by
  induction l with
  | nil => rfl
  | cons c cs ih =>
    cases cs with
    | nil => rfl
    | cons c2 cs2 =>
      rw [show containsMonthPattern (c :: c2 :: cs2) =
            ((c.isDigit && isSep c2) || containsMonthPattern (c2 :: cs2))
          from rfl, Bool.or_eq_false_iff] at h
      obtain ⟨h1, h2⟩ := h
      have ih2 := ih h2
      cases cs2 with
      | nil =>
        rw [show findMonthMatch [c, c2] =
              (if c.isDigit && isSep c2 then some [c] else findMonthMatch [c2])
            from rfl, h1]
        rfl
      | cons c3 rest =>
        have h21 : (c2.isDigit && isSep c3) = false := by
          rw [show containsMonthPattern (c2 :: c3 :: rest) =
                ((c2.isDigit && isSep c3) || containsMonthPattern (c3 :: rest))
              from rfl, Bool.or_eq_false_iff] at h2
          exact h2.1
        rw [show findMonthMatch (c :: c2 :: c3 :: rest) =
              (if c.isDigit && c2.isDigit && isSep c3 then some [c, c2]
               else if c.isDigit && isSep c2 then some [c]
               else findMonthMatch (c2 :: c3 :: rest)) from rfl]
        rw [Bool.and_assoc, h21, Bool.and_false, h1]
        simpa using ih2

/-- If the anchored pattern matches at the start of the list, the
unanchored leftmost search returns the same captured digits. -/
theorem findMonthMatch_of_anchored (l : List Char) (ds : List Char)
    (h : anchoredMonthDigits l = some ds) : findMonthMatch l = some ds := by
  match l with
  | [] => exact absurd h (by simp [anchoredMonthDigits])
  | [c] => exact absurd h (by simp [anchoredMonthDigits])
  | [c, c2] =>
    rw [show anchoredMonthDigits [c, c2] =
          (if c.isDigit && isSep c2 then some [c] else none) from rfl] at h
    rw [show findMonthMatch [c, c2] =
          (if c.isDigit && isSep c2 then some [c] else findMonthMatch [c2])
        from rfl]
    split at h
    · next hcond => rw [if_pos hcond]; exact h
    · exact absurd h (by simp)
  | c :: c2 :: c3 :: rest =>
    rw [show anchoredMonthDigits (c :: c2 :: c3 :: rest) =
          (if c.isDigit && c2.isDigit && isSep c3 then some [c, c2]
           else if c.isDigit && isSep c2 then some [c] else none) from rfl] at h
    rw [show findMonthMatch (c :: c2 :: c3 :: rest) =
          (if c.isDigit && c2.isDigit && isSep c3 then some [c, c2]
           else if c.isDigit && isSep c2 then some [c]
           else findMonthMatch (c2 :: c3 :: rest)) from rfl]
    split at h
    · next hcond => rw [if_pos hcond]; exact h
    · next hcond1 =>
      split at h
      · next hcond2 => rw [if_neg hcond1, if_pos hcond2]; exact h
      · exact absurd h (by simp)

/-- A bare 1-2 digit string has no digit-then-separator match. -/
theorem findMonthMatch_of_bareNum (l : List Char) (h : isBareNum l = true) :
    findMonthMatch l = none := by
  simp only [isBareNum, Bool.and_eq_true, Bool.or_eq_true,
    decide_eq_true_eq, List.all_eq_true] at h
  obtain ⟨hlen, hdig⟩ := h
  rcases l with _ | ⟨c, _ | ⟨c2, _ | ⟨c3, rest⟩⟩⟩
  · simp at hlen
  · rfl
  · have hd2 : c2.isDigit = true := hdig c2 (by simp)
    have hcond : (c.isDigit && isSep c2) = false := by
      rcases hs : isSep c2 with _ | _
      · simp [hs]
      · rw [isDigit_eq_false_of_isSep c2 hs] at hd2
        exact absurd hd2 (by simp)
    rw [show findMonthMatch [c, c2] =
          (if c.isDigit && isSep c2 then some [c] else findMonthMatch [c2])
        from rfl, hcond]
    rfl
  · simp only [List.length_cons] at hlen
    omega

/-! ## Helper lemmas: partitioner and selection manager -/

/-- The `forEach` accumulation of `sortedStats` is filtering: facilities
classified into the current month extend the first accumulator, the rest
extend the second, keeping input order. -/
theorem sortedStats_foldl (m : Nat) (l : List Facility) :
    ∀ a b : List Facility,
      l.foldl (fun acc f =>
        if isVisitedIn m f then (acc.1 ++ [f], acc.2)
        else (acc.1, acc.2 ++ [f])) (a, b) =
      (a ++ l.filter (fun f => isVisitedIn m f),
       b ++ l.filter (fun f => !isVisitedIn m f)) := by
  induction l with
  | nil => intro a b; simp
  | cons f l ih =>
    intro a b
    rcases hv : isVisitedIn m f with _ | _ <;>
      simp [List.filter_cons, hv, ih, List.append_assoc]

/-- `sortedStats` computes the two filters and the input length. -/
theorem sortedStats_eq (facs : List Facility) (m : Nat) :
    sortedStats facs m =
      ⟨facs.filter (fun f => isVisitedIn m f),
       facs.filter (fun f => !isVisitedIn m f), facs.length⟩ := by
  unfold sortedStats
  rw [sortedStats_foldl]
  simp

/-- A filter and its complementary filter split the length of a list. -/
theorem length_filter_add_length_filter_not (p : Facility → Bool)
    (l : List Facility) :
    (l.filter p).length + (l.filter fun f => !p f).length = l.length := by
  induction l with
  | nil => rfl
  | cons f l ih =>
    rcases h : p f with _ | _ <;> simp [List.filter_cons, h] <;> omega

/-- One `toggleSelection` call keeps the selection within 9 members. -/
theorem card_toggleSelection (s : Finset String) (id : String)
    (h : s.card ≤ 9) : (toggleSelection s id).card ≤ 9 := by
  by_cases hmem : id ∈ s
  · have he : toggleSelection s id = s.erase id := by
      simp [toggleSelection, hmem]
    rw [he]
    exact le_trans (Finset.card_erase_le) h
  · by_cases hcard : s.card ≥ 9
    · have he : toggleSelection s id = s := by
        simp [toggleSelection, hmem, hcard]
      rw [he]; exact h
    · have he : toggleSelection s id = insert id s := by
        simp [toggleSelection, hmem, hcard]
      rw [he, Finset.card_insert_of_not_mem hmem]
      omega

/-- Every selection-manager operation keeps the selection within 9. -/
theorem card_applySelOp (s : Finset String) (op : SelOp)
    (h : s.card ≤ 9) : (applySelOp s op).card ≤ 9 := by
  cases op with
  | toggle id => exact card_toggleSelection s id h
  | selectTop9 u =>
    simp only [applySelOp, selectTop9]
    calc (((u.take 9).map (fun f => f.id)).toFinset).card
        ≤ ((u.take 9).map (fun f => f.id)).length := List.toFinset_card_le _
      _ = (u.take 9).length := by simp
      _ ≤ 9 := by rw [List.length_take]; exact min_le_left _ _
  | clear => simp [applySelOp, clearSelection]

/-! ## Helper lemmas: route assembly -/

/-- Dropping the `null` entries of the rendered route yields the
counter-annotated survivor list, the counter starting one past the
rendering index. -/
theorem renderRoute_reduceOption (facs : List Facility) :
    ∀ (ids : List String) (n : Nat),
      (renderRoute facs n ids).reduceOption = routeDisplayFrom facs (n + 1) ids := by
  intro ids
  induction ids with
  | nil => intro n; rfl
  | cons id rest ih =>
    intro n
    rcases hf : facs.find? (fun f => f.id == id) with _ | f <;>
      simp [renderRoute, routeDisplayFrom, hf, ih]

/-- Forgetting the annotations, the survivor list is exactly the
resolution `filterMap` over the identifier list. -/
theorem routeDisplayFrom_map_snd (facs : List Facility) :
    ∀ (ids : List String) (k : Nat),
      (routeDisplayFrom facs k ids).map Prod.snd =
        ids.filterMap (fun id => facs.find? (fun f => f.id == id)) := by
  intro ids
  induction ids with
  | nil => intro k; rfl
  | cons id rest ih =>
    intro k
    rcases hf : facs.find? (fun f => f.id == id) with _ | f <;>
      simp [routeDisplayFrom, List.filterMap_cons, hf, ih]

/-! ## Claim theorems -/

/-- Claim C2 (amended): for every input string that is not empty and not a
no-visit sentinel, that nowhere contains a digit immediately followed by a
separator from 月, /, -, ., and that is not a bare 1-2 digit string,
`getMonthFromDateString` returns `null`.  The original claim required
only that the string not *begin* with the digit-separator pattern, but the
regex is unanchored: `getMonthFromDateString` on "2024-03" matches the
internal "24-" and returns 24, not `null`. -/
theorem monthOf_null_on_no_separator_match :
    (∀ s : String, ¬(s = "" ∨ s = "なし" ∨ s = "未訪問") →
        containsMonthPattern s.data = false → isBareNum s.data = false →
        getMonthFromDateString (some s) = none) ∧
    getMonthFromDateString (some "2024-03") = some 24 := by
  constructor
  · intro s hsent hpat hbare
    simp only [getMonthFromDateString]
    rw [if_neg hsent, findMonthMatch_eq_none s.data hpat, hbare]
    rfl
  · decide

/-- Claim C2 counterexample: "2024-03" does not begin with a 1-2 digit
number followed by a separator (the anchored pattern fails), is not a bare
1-2 digit string, and is not a sentinel, yet `getMonthFromDateString`
returns 24 rather than the `null` the claim requires. -/
theorem monthOf_unanchored_counterexample :
    anchoredMonthDigits ("2024-03" : String).data = none ∧
    isBareNum ("2024-03" : String).data = false ∧
    ¬(("2024-03" : String) = "" ∨ ("2024-03" : String) = "なし" ∨
       ("2024-03" : String) = "未訪問") ∧
    getMonthFromDateString (some "2024-03") = some 24 := by decide

/-- Claim C2 witness: applying the amended statement to the string "abc",
which contains no digit-separator pattern and is not a bare number. -/
theorem monthOf_null_on_no_separator_match_witness :
    ¬(("abc" : String) = "" ∨ ("abc" : String) = "なし" ∨
       ("abc" : String) = "未訪問") ∧
    containsMonthPattern ("abc" : String).data = false ∧
    isBareNum ("abc" : String).data = false ∧
    getMonthFromDateString (some "abc") = none := by
  refine ⟨by decide, by decide, by decide, ?_⟩
  exact monthOf_null_on_no_separator_match.1 "abc" (by decide) (by decide)
    (by decide)

/-- Claim C7: for every date string whose text matches the anchored
pattern `^\d{1,2}[月/\-.]`, `getMonthFromDateString` returns the leading
numeral; `undefined`, the empty string, "なし" and "未訪問" yield `null`;
and a bare 1-2 digit string is returned as a month number. -/
theorem monthOf_formats :
    getMonthFromDateString none = none ∧
    getMonthFromDateString (some "") = none ∧
    getMonthFromDateString (some "なし") = none ∧
    getMonthFromDateString (some "未訪問") = none ∧
    (∀ (s : String) (ds : List Char), anchoredMonthDigits s.data = some ds →
        getMonthFromDateString (some s) = some (parseDigits ds)) ∧
    (∀ s : String, isBareNum s.data = true →
        getMonthFromDateString (some s) = some (parseDigits s.data)) := by
  refine ⟨rfl, by decide, by decide, by decide, ?_, ?_⟩
  · intro s ds h
    have hsent : ¬(s = "" ∨ s = "なし" ∨ s = "未訪問") := by
      rintro (rfl | rfl | rfl) <;>
        · rw [show anchoredMonthDigits (String.data _) = none from by decide] at h
          exact absurd h (by simp)
    simp only [getMonthFromDateString]
    rw [if_neg hsent, findMonthMatch_of_anchored s.data ds h]
  · intro s h
    have hsent : ¬(s = "" ∨ s = "なし" ∨ s = "未訪問") := by
      rintro (rfl | rfl | rfl) <;> revert h <;> decide
    simp only [getMonthFromDateString]
    rw [if_neg hsent, findMonthMatch_of_bareNum s.data h, h]
    rfl

/-- Claim C7 witness: the anchored case applied to "7月" and the bare-digit
case applied to "12". -/
theorem monthOf_formats_witness :
    getMonthFromDateString (some "7月") = some 7 ∧
    getMonthFromDateString (some "12") = some 12 := by
  constructor
  · have h := monthOf_formats.2.2.2.2.1 "7月" ['7'] (by decide)
    rw [h]; decide
  · have h := monthOf_formats.2.2.2.2.2 "12" (by decide)
    rw [h]; decide

/-- Claim C3: clicking the card of a facility classified as visited in the
current month leaves the selection set unchanged, whatever the selection
set is — the card's click handler guards the toggle with `!isV`. -/
theorem click_visited_noop (m : Nat) (f : Facility) (sel : Finset String)
    (h : getMonthFromDateString (some f.lastVisitDate) = some m) :
    onFacilityCardClick m f sel = sel := by
  have hv : isVisitedIn m f = true := by simp [isVisitedIn, h]
  simp [onFacilityCardClick, hv]

/-- Claim C3 witness: a facility last visited on "3月12日" is visited in
month 3; clicking it does not change the singleton selection. -/
theorem click_visited_noop_witness :
    getMonthFromDateString (some facMarch.lastVisitDate) = some 3 ∧
    onFacilityCardClick 3 facMarch {"z"} = {"z"} :=
  ⟨by decide, click_visited_noop 3 facMarch {"z"} (by decide)⟩

/-- Claim C6: for every facility collection and fixed current month M,
`sortedStats` places every facility in exactly one of `visited`
(classifier result equals M) and `unvisited` (all others), the two part
lengths sum to the collection length, and each part preserves the
relative order of the input collection (is a sublist of it). -/
theorem sortedStats_partition (facs : List Facility) (m : Nat) :
    (sortedStats facs m).visited.length +
        (sortedStats facs m).unvisited.length = facs.length ∧
    (∀ f, f ∈ (sortedStats facs m).visited ↔
        f ∈ facs ∧ getMonthFromDateString (some f.lastVisitDate) = some m) ∧
    (∀ f, f ∈ (sortedStats facs m).unvisited ↔
        f ∈ facs ∧ getMonthFromDateString (some f.lastVisitDate) ≠ some m) ∧
    (∀ f, ¬(f ∈ (sortedStats facs m).visited ∧
        f ∈ (sortedStats facs m).unvisited)) ∧
    (∀ f, f ∈ facs ↔ (f ∈ (sortedStats facs m).visited ∨
        f ∈ (sortedStats facs m).unvisited)) ∧
    (sortedStats facs m).visited.Sublist facs ∧
    (sortedStats facs m).unvisited.Sublist facs := by
  rw [sortedStats_eq]
  refine ⟨length_filter_add_length_filter_not _ _, ?_, ?_, ?_, ?_,
    List.filter_sublist _, List.filter_sublist _⟩
  · intro f
    simp [List.mem_filter, isVisitedIn]
  · intro f
    simp [List.mem_filter, isVisitedIn]
  · intro f
    simp only [List.mem_filter]
    rintro ⟨⟨_, h1⟩, ⟨_, h2⟩⟩
    rw [h1] at h2
    simp at h2
  · intro f
    simp only [List.mem_filter]
    constructor
    · intro hf
      rcases hv : isVisitedIn m f with _ | _
      · right; exact ⟨hf, rfl⟩
      · left; exact ⟨hf, rfl⟩
    · rintro (⟨hf, _⟩ | ⟨hf, _⟩) <;> exact hf

/-- Claim C6 witness: the partition statement applied to a concrete
two-facility collection in month 3. -/
theorem sortedStats_partition_witness :
    (sortedStats [facB, facMarch] 3).visited.length +
      (sortedStats [facB, facMarch] 3).unvisited.length = 2 ∧
    ¬(facB ∈ (sortedStats [facB, facMarch] 3).visited ∧
       facB ∈ (sortedStats [facB, facMarch] 3).unvisited) := by
  have h := sortedStats_partition [facB, facMarch] 3
  exact ⟨h.1, h.2.2.2.1 facB⟩

/-- Claim C8: any sequence of toggle, select-top-9 and clear operations
started from a selection of at most 9 members keeps the selection at 9
members or fewer; in particular a toggle that would add a 10th member
leaves the set unchanged. -/
theorem selection_bound :
    (∀ (s : Finset String) (ops : List SelOp), s.card ≤ 9 →
        (ops.foldl applySelOp s).card ≤ 9) ∧
    (∀ (s : Finset String) (id : String), s.card = 9 → id ∉ s →
        toggleSelection s id = s) := by
  constructor
  · intro s ops
    induction ops generalizing s with
    | nil => intro h; simpa using h
    | cons op ops ih =>
      intro h
      rw [List.foldl_cons]
      exact ih _ (card_applySelOp s op h)
  · intro s id hcard hmem
    unfold toggleSelection
    rw [if_neg hmem, if_pos (by omega)]

/-- Claim C8 witness: the bound applied to the empty selection and a short
action sequence, and the 10th-member rejection applied to a concrete
9-member selection. -/
theorem selection_bound_witness :
    ((∅ : Finset String).card ≤ 9 ∧
      (List.foldl applySelOp ∅ [SelOp.toggle "a", SelOp.clear]).card ≤ 9) ∧
    (({"a", "b", "c", "d", "e", "f", "g", "h", "i"} : Finset String).card = 9 ∧
      "j" ∉ ({"a", "b", "c", "d", "e", "f", "g", "h", "i"} : Finset String) ∧
      toggleSelection {"a", "b", "c", "d", "e", "f", "g", "h", "i"} "j" =
        {"a", "b", "c", "d", "e", "f", "g", "h", "i"}) := by
  refine ⟨⟨by decide, selection_bound.1 ∅ [SelOp.toggle "a", SelOp.clear]
    (by decide)⟩, by decide, by decide, selection_bound.2 _ "j" (by decide)
    (by decide)⟩

/-- Claim C4 (amended): route assembly resolves each identifier to its
facility by id and silently drops identifiers with no matching facility,
the survivors keeping identifier-list order; but each surviving entry is
annotated with the 1-based position of its identifier in `orderedIds`,
not with its position among the survivors. -/
theorem routeDisplay_assembly (ids : List String) (facs : List Facility) :
    routeDisplay ids facs = routeDisplayFrom facs 1 ids ∧
    (routeDisplay ids facs).map Prod.snd =
      ids.filterMap (fun id => facs.find? (fun f => f.id == id)) := by
  have h1 : routeDisplay ids facs = routeDisplayFrom facs 1 ids := by
    unfold routeDisplay
    rw [renderRoute_reduceOption]
  exact ⟨h1, by rw [h1, routeDisplayFrom_map_snd]⟩

/-- Claim C4 counterexample: with `orderedIds = ["x", "b"]` and a
collection containing only id "b", the sole surviving entry is annotated
2 (its identifier's position in `orderedIds`), not 1 as the claim's
"1-based position in the resulting sequence" requires. -/
theorem routeDisplay_position_counterexample :
    routeDisplay ["x", "b"] [facB] = [(2, facB)] ∧
    ¬((routeDisplay ["x", "b"] [facB]).map Prod.fst =
        List.range' 1 (routeDisplay ["x", "b"] [facB]).length) := by decide

/-- Claim C5 (amended): the full reset empties the facility collection,
the selection set, the route plan's ordered identifier list, the uploaded
file list and the error message, from any prior state — but it leaves the
route plan's free-text rationale untouched. -/
theorem resetState_clears (s : AppState) :
    (resetState s).facilities = [] ∧
    (resetState s).selectedIds = ∅ ∧
    (resetState s).optimizedIds = [] ∧
    (resetState s).selectedFiles = [] ∧
    (resetState s).error = none ∧
    (resetState s).reasoning = s.reasoning :=
  ⟨rfl, rfl, rfl, rfl, rfl, rfl⟩

/-- Claim C5 counterexample: resetting a state that holds a route plan
with a non-empty rationale leaves that rationale non-empty, so the route
plan is not emptied in both of its parts as the claim requires. -/
theorem resetState_reasoning_counterexample :
    exampleState.optimizedIds ≠ [] ∧
    (resetState exampleState).reasoning = "北から順に効率よく回るルート" ∧
    ¬((resetState exampleState).reasoning = "") := by decide

/-- Claim C1 (amended): when the document-analysis call raises an
exception or returns a malformed or empty response, the parser swallows
the failure and returns `[]`; the scan handler then replaces the facility
collection with that empty list, clears the selection, and presents no
error message at all (rather than the generic extraction-error message).
No partial facility list is shown, but a previously loaded collection is
wiped. -/
theorem handleParse_failure_silent (s : AppState)
    (h : (s.selectedFiles.isEmpty && s.ocrText.trim == "") = false) :
    handleParse SvcOutcome.throws s =
      { s with error := none, facilities := [], selectedIds := ∅ } ∧
    handleParse SvcOutcome.emptyText s =
      { s with error := none, facilities := [], selectedIds := ∅ } ∧
    handleParse SvcOutcome.malformed s =
      { s with error := none, facilities := [], selectedIds := ∅ } := by
  refine ⟨?_, ?_, ?_⟩ <;>
    · unfold handleParse parseContentToFacilities
      simp [h]

/-- Claim C1 witness: the amended statement applied to a concrete state
with an uploaded file present and a malformed service response. -/
theorem handleParse_failure_silent_witness :
    (exampleState.selectedFiles.isEmpty && exampleState.ocrText.trim == "")
        = false ∧
    handleParse SvcOutcome.malformed exampleState =
      { exampleState with error := none, facilities := [], selectedIds := ∅ } :=
  ⟨by decide, (handleParse_failure_silent exampleState (by decide)).2.2⟩

/-- Claim C1 counterexample: a malformed analysis response leaves no error
message (the claim requires the generic extraction-error message) and
replaces the previously non-empty facility collection with the empty
list (the claim requires no update to the collection). -/
theorem handleParse_error_counterexample :
    exampleState.facilities ≠ [] ∧
    (handleParse SvcOutcome.malformed exampleState).error = none ∧
    (handleParse SvcOutcome.malformed exampleState).facilities = [] := by decide

/-- The waypoints parameter name occurs in every URL built from the
driving-directions template. -/
theorem waypoints_infix (p1 p2 w : String) :
    ("&waypoints=" : String).data <:+:
      ("https://www.google.com/maps/dir/?api=1&origin=" ++ p1 ++
        "&destination=" ++ p2 ++ "&waypoints=" ++ w ++
        "&travelmode=driving").data := by
  refine ⟨("https://www.google.com/maps/dir/?api=1&origin=" ++ p1 ++
    "&destination=" ++ p2).data, (w ++ "&travelmode=driving").data, ?_⟩
  simp [String.data_append, List.append_assoc]

/-- With no intermediate stops the template ends in an empty-valued
waypoints parameter followed by the travel mode. -/
theorem waypoints_suffix (p1 p2 : String) :
    ("&waypoints=&travelmode=driving" : String).data <:+
      ("https://www.google.com/maps/dir/?api=1&origin=" ++ p1 ++
        "&destination=" ++ p2 ++ "&waypoints=" ++ "" ++
        "&travelmode=driving").data := by
  have hseg : ("&waypoints=" : String).data ++
      ("&travelmode=driving" : String).data =
      ("&waypoints=&travelmode=driving" : String).data := by decide
  refine ⟨("https://www.google.com/maps/dir/?api=1&origin=" ++ p1 ++
    "&destination=" ++ p2).data, ?_⟩
  simp [String.data_append, List.append_assoc, ← hseg]

/-- Claim C9: `getMapsUrl` agrees with the spec's driving-URL contract —
the empty string on an empty resolved sequence, and otherwise the
driving-mode URL whose origin is the percent-encoded caller-supplied
location, whose destination is the percent-encoded address of the last
resolved stop, and whose waypoints are the percent-encoded addresses of
all prior stops joined with a pipe in original order. -/
theorem getMapsUrl_matches_drivingUrlSpec (ids : List String)
    (facs : List Facility) (loc : String) :
    getMapsUrl ids facs loc =
      drivingUrlSpec loc ((resolveOrdered ids facs).map (fun f => f.address)) := by
  simp only [getMapsUrl, drivingUrlSpec]
  rcases hres : resolveOrdered ids facs with _ | ⟨f, l⟩
  · simp
  · have hne : (f :: l) ≠ [] := by simp
    rw [dif_neg hne, List.getLast?_map, List.getLast?_eq_getLast _ hne]
    simp [List.map_dropLast, List.map_map, Function.comp_def]

/-- Claim C10: for every identifier list, facility collection and origin,
a non-empty resolved sequence yields a URL containing the waypoints query
parameter, and a resolved sequence of exactly one facility yields a URL
that still ends with an empty-valued waypoints parameter before the
travel mode. -/
theorem getMapsUrl_waypoints_param (ids : List String)
    (facs : List Facility) (loc : String) :
    (resolveOrdered ids facs ≠ [] →
      ("&waypoints=" : String).data <:+: (getMapsUrl ids facs loc).data) ∧
    ((resolveOrdered ids facs).length = 1 →
      ("&waypoints=&travelmode=driving" : String).data <:+
        (getMapsUrl ids facs loc).data) := by
  constructor
  · intro h
    simp only [getMapsUrl]
    rw [dif_neg h]
    exact waypoints_infix _ _ _
  · intro h
    rcases hres : resolveOrdered ids facs with _ | ⟨f, l⟩
    · rw [hres] at h; simp at h
    · rw [hres] at h
      rcases l with _ | ⟨g, t⟩
      · simp only [getMapsUrl, hres]
        rw [dif_neg (by simp : ([f] : List Facility) ≠ [])]
        exact waypoints_suffix _ _
      · simp at h

/-- Claim C10 witness: the identifier list `["b"]` resolves to exactly one
facility, and the resulting URL carries an empty-valued waypoints
parameter. -/
theorem getMapsUrl_waypoints_param_witness :
    resolveOrdered ["b"] [facB] ≠ [] ∧
    (resolveOrdered ["b"] [facB]).length = 1 ∧
    ("&waypoints=" : String).data <:+:
      (getMapsUrl ["b"] [facB] "現在地").data ∧
    ("&waypoints=&travelmode=driving" : String).data <:+
      (getMapsUrl ["b"] [facB] "現在地").data := by
  have h := getMapsUrl_waypoints_param ["b"] [facB] "現在地"
  exact ⟨by decide, by decide, h.1 (by decide), h.2 (by decide)⟩

end CareRoute
